import Mathlib

/-!
# Attester duties over HTTP

A shallow embedding of `GetAttesterDutiesHTTP`
(`beacon-chain/rpc/eth/validator/validator_http.go`) together with the response
types of `structs.go`.

The handler is a straight line of guarded steps.  Every collaborator it talks
to (sync checker, time fetcher, optimistic-mode fetcher, state provider, the
committee helpers, the state itself) is a field of `Server` or `Chain`; the
handler returns what it wrote to the response writer together with the ordered
list of collaborator calls it made, so that statements of the form "fails
without fetching state" can be expressed.

Machine integers are natural numbers; the places where the source does 64-bit
arithmetic or a 64-bit conversion reduce modulo `2 ^ 64` explicitly.
-/

set_option autoImplicit false

namespace primitives

/-- An epoch number (`primitives.Epoch`, a `uint64`). -/
abbrev Epoch := Nat

/-- A slot number (`primitives.Slot`, a `uint64`). -/
abbrev Slot := Nat

/-- A validator index (`primitives.ValidatorIndex`, a `uint64`). -/
abbrev ValidatorIndex := Nat

/-- A committee index (`primitives.CommitteeIndex`, a `uint64`). -/
abbrev CommitteeIndex := Nat

end primitives

namespace validator

/-- Body of an error response (`network.DefaultErrorJson`). -/
structure DefaultErrorJson where
  Message : String
  Code : Nat
  deriving DecidableEq

/-- One attester duty (`AttesterDuty` of `structs.go`); byte strings are lists of bytes. -/
structure AttesterDuty where
  Pubkey : List Nat
  ValidatorIndex : Nat
  CommitteeIndex : Nat
  CommitteeLength : Nat
  CommitteesAtSlot : Nat
  ValidatorCommitteeIndex : Nat
  Slot : Nat
  deriving DecidableEq

/-- The duty report (`AttesterDutiesResponse` of `structs.go`). -/
structure AttesterDutiesResponse where
  Data : List AttesterDuty
  ExecutionOptimistic : Bool
  DependentRoot : List Nat
  deriving DecidableEq

/-- A committee assignment as the handler consumes it: the members of the committee in
order, the slot at which they attest and the index of the committee. -/
structure CommitteeAssignmentContainer where
  Committee : List primitives.ValidatorIndex
  AttesterSlot : primitives.Slot
  CommitteeIndex : primitives.CommitteeIndex
  deriving DecidableEq

/-- What the handler writes to the response writer: `network.WriteError` or
`network.WriteJson`.  Every path of the handler writes exactly once. -/
inductive Written where
  | WriteError (e : DefaultErrorJson)
  | WriteJson (r : AttesterDutiesResponse)
  deriving DecidableEq

/-- A call made to a collaborator, with its arguments (the request context left out). -/
inductive Call (σ : Type) where
  | Syncing
  | CurrentSlot
  | IsOptimistic
  | StateBySlot (slot : primitives.Slot)
  | CommitteeAssignments (s : σ) (epoch : primitives.Epoch)
  | ActiveValidatorCount (s : σ) (epoch : primitives.Epoch)
  | SlotCommitteeCount (activeValidatorCount : Nat)
  | PubkeyAtIndex (s : σ) (index : primitives.ValidatorIndex)
  | attestationDependentRoot (s : σ) (epoch : primitives.Epoch)
  deriving DecidableEq

/-- The collaborators held by the receiver `vs *Server`, each given by what it answers:
`SyncChecker.Syncing()`, `TimeFetcher.CurrentSlot()`, `OptimisticModeFetcher.IsOptimistic(ctx)`
and `Stater.StateBySlot(ctx, slot)`.  `σ` is the type of beacon state snapshots. -/
structure Server (σ : Type) where
  Syncing : Bool
  CurrentSlot : primitives.Slot
  IsOptimistic : Except String Bool
  StateBySlot : primitives.Slot → Except String σ

/-- The package-level collaborators and the one state method the handler uses:
the configured `SlotsPerEpoch`, `helpers.CommitteeAssignments` (its map from validator
index to assignment is a function into `Option`, a missing key or a nil entry being
`none`), `helpers.ActiveValidatorCount`, `helpers.SlotCommitteeCount`,
`s.PubkeyAtIndex` and `attestationDependentRoot`. -/
structure Chain (σ : Type) where
  SlotsPerEpoch : Nat
  CommitteeAssignments : σ → primitives.Epoch →
    Except String (primitives.ValidatorIndex → Option CommitteeAssignmentContainer)
  ActiveValidatorCount : σ → primitives.Epoch → Except String Nat
  SlotCommitteeCount : Nat → Nat
  PubkeyAtIndex : σ → primitives.ValidatorIndex → List Nat
  attestationDependentRoot : σ → primitives.Epoch → Except String (List Nat)

/-- The conversion `primitives.Epoch(rawRequestedEpoch)` of a signed 64-bit integer to an
unsigned one: the value modulo `2 ^ 64`. -/
def epochOfInt64 (rawRequestedEpoch : Int) : Nat :=
  (rawRequestedEpoch % 18446744073709551616).toNat

/-- Modelled from the spec: `slots.ToEpoch`, which is not among the sources.  The epoch of a
slot; an epoch is a fixed-length span of `slotsPerEpoch` slots. -/
def ToEpoch (slotsPerEpoch : Nat) (slot : primitives.Slot) : Nat :=
  slot / slotsPerEpoch

/-- Modelled from the spec: `slots.EpochStart`, which is not among the sources.  The first
slot of an epoch; it fails when the epoch-to-slot arithmetic overflows 64 bits. -/
def EpochStart (slotsPerEpoch : Nat) (epoch : primitives.Epoch) : Except String Nat :=
  if slotsPerEpoch * epoch < 18446744073709551616 then
    Except.ok (slotsPerEpoch * epoch)
  else
    Except.error "start slot calculation overflows"

/-- The all-zero public key `var zeroPubkey [fieldparams.BLSPubkeyLength]byte`, 48 bytes. -/
def zeroPubkey : List Nat := List.replicate 48 0

/-- The inner loop of the handler: the position of the first member of the committee equal
to `index`, counted from `cIndex`; `0` (the zero value of `valIndexInCommittee`) when the
loop ends without a match. -/
def valIndexInCommittee (index : primitives.ValidatorIndex) :
    List primitives.ValidatorIndex → Nat → Nat
  | [], _ => 0
  | vIndex :: rest, cIndex =>
    if vIndex = index then cIndex else valIndexInCommittee index rest (cIndex + 1)

/-- The duty appended for `index` once its committee is known. -/
def newAttesterDuty (pubkey : List Nat) (index : primitives.ValidatorIndex)
    (committee : CommitteeAssignmentContainer) (committeesAtSlot : Nat) : AttesterDuty where
  Pubkey := pubkey
  ValidatorIndex := index
  CommitteeIndex := committee.CommitteeIndex
  CommitteeLength := committee.Committee.length
  CommitteesAtSlot := committeesAtSlot
  ValidatorCommitteeIndex := valIndexInCommittee index committee.Committee 0
  Slot := committee.AttesterSlot

/-- The loop `for _, index := range validatorIndices` of the handler, with the duties
appended so far as accumulator.  `none` is the early return on an all-zero public key;
the second component lists the `PubkeyAtIndex` calls made. -/
def attesterDutiesLoop {σ : Type} (ch : Chain σ) (s : σ)
    (committeeAssignments : primitives.ValidatorIndex → Option CommitteeAssignmentContainer)
    (committeesAtSlot : Nat) :
    List primitives.ValidatorIndex → List AttesterDuty →
      Option (List AttesterDuty) × List (Call σ)
  | [], attesterDuties => (some attesterDuties, [])
  | index :: rest, attesterDuties =>
    let pubkey := ch.PubkeyAtIndex s index
    if pubkey = zeroPubkey then
      (none, [Call.PubkeyAtIndex s index])
    else
      match committeeAssignments index with
      | none =>
        let r := attesterDutiesLoop ch s committeeAssignments committeesAtSlot rest attesterDuties
        (r.1, Call.PubkeyAtIndex s index :: r.2)
      | some committee =>
        let r := attesterDutiesLoop ch s committeeAssignments committeesAtSlot rest
          (attesterDuties ++ [newAttesterDuty pubkey index committee committeesAtSlot])
        (r.1, Call.PubkeyAtIndex s index :: r.2)

/-- The handler `GetAttesterDutiesHTTP`.  `epochVar` is the outcome of
`strconv.ParseInt(mux.Vars(r)["epoch"], 10, 64)` and `body` the outcome of decoding the
request body into `[]primitives.ValidatorIndex`.  The result is what was written to the
response writer and the collaborator calls made, in order. -/
def GetAttesterDutiesHTTP {σ : Type} (vs : Server σ) (ch : Chain σ)
    (epochVar : Except String Int) (body : Except String (List primitives.ValidatorIndex)) :
    Written × List (Call σ) :=
  match epochVar with
  | Except.error err =>
    (Written.WriteError ⟨"Could not decode epoch: " ++ err, 400⟩, [])
  | Except.ok rawRequestedEpoch =>
  let requestedEpoch := epochOfInt64 rawRequestedEpoch
  match body with
  | Except.error err =>
    (Written.WriteError ⟨"Could not decode validators: " ++ err, 400⟩, [])
  | Except.ok validatorIndices =>
  if vs.Syncing then
    (Written.WriteError
      ⟨"Beacon node is currently syncing and not serving requests on this endpoint", 503⟩,
      [Call.Syncing])
  else
  let cs := vs.CurrentSlot
  let currentEpoch := ToEpoch ch.SlotsPerEpoch cs
  let nextEpoch := (currentEpoch + 1) % 18446744073709551616
  if requestedEpoch > nextEpoch then
    (Written.WriteError
      ⟨"Request epoch " ++ toString requestedEpoch ++
        " cannot be greater than the next epoch " ++ toString nextEpoch, 400⟩,
      [Call.Syncing, Call.CurrentSlot])
  else
  match vs.IsOptimistic with
  | Except.error err =>
    (Written.WriteError ⟨"Could not check optimistic status: " ++ err, 500⟩,
      [Call.Syncing, Call.CurrentSlot, Call.IsOptimistic])
  | Except.ok isOptimistic =>
  match (if requestedEpoch = nextEpoch then EpochStart ch.SlotsPerEpoch currentEpoch
         else EpochStart ch.SlotsPerEpoch requestedEpoch) with
  | Except.error err =>
    (Written.WriteError
      ⟨"Could not get start slot from epoch " ++ toString requestedEpoch ++ ": " ++ err, 500⟩,
      [Call.Syncing, Call.CurrentSlot, Call.IsOptimistic])
  | Except.ok startSlot =>
  match vs.StateBySlot startSlot with
  | Except.error err =>
    (Written.WriteError ⟨"Could not get state: " ++ err, 500⟩,
      [Call.Syncing, Call.CurrentSlot, Call.IsOptimistic, Call.StateBySlot startSlot])
  | Except.ok s =>
  match ch.CommitteeAssignments s requestedEpoch with
  | Except.error err =>
    (Written.WriteError ⟨"Could not compute committee assignments: " ++ err, 500⟩,
      [Call.Syncing, Call.CurrentSlot, Call.IsOptimistic, Call.StateBySlot startSlot,
        Call.CommitteeAssignments s requestedEpoch])
  | Except.ok committeeAssignments =>
  match ch.ActiveValidatorCount s requestedEpoch with
  | Except.error err =>
    (Written.WriteError ⟨"Could not get active validator count: " ++ err, 500⟩,
      [Call.Syncing, Call.CurrentSlot, Call.IsOptimistic, Call.StateBySlot startSlot,
        Call.CommitteeAssignments s requestedEpoch, Call.ActiveValidatorCount s requestedEpoch])
  | Except.ok activeValidatorCount =>
  let committeesAtSlot := ch.SlotCommitteeCount activeValidatorCount
  let calls := [Call.Syncing, Call.CurrentSlot, Call.IsOptimistic, Call.StateBySlot startSlot,
    Call.CommitteeAssignments s requestedEpoch, Call.ActiveValidatorCount s requestedEpoch,
    Call.SlotCommitteeCount activeValidatorCount]
  let loop := attesterDutiesLoop ch s committeeAssignments committeesAtSlot validatorIndices []
  match loop.1 with
  | none =>
    (Written.WriteError ⟨"Invalid validator index", 400⟩, calls ++ loop.2)
  | some attesterDuties =>
  match ch.attestationDependentRoot s requestedEpoch with
  | Except.error err =>
    (Written.WriteError ⟨"Could not get dependent root: " ++ err, 500⟩,
      calls ++ loop.2 ++ [Call.attestationDependentRoot s requestedEpoch])
  | Except.ok root =>
    (Written.WriteJson ⟨attesterDuties, isOptimistic, root⟩,
      calls ++ loop.2 ++ [Call.attestationDependentRoot s requestedEpoch])

/-- Whether a call is a fetch of a state snapshot from the state provider. -/
def Call.isStateBySlot {σ : Type} : Call σ → Bool
  | Call.StateBySlot _ => true
  | _ => false

/-- A chain used for concrete evaluations; a state snapshot is identified by the slot it
was stored at.  Validators `0` to `4` have a public key, every other index has the
all-zero key; `0` and `1` sit in committees, `2` is assigned an empty committee and `3`
onwards have no assignment. -/
def exampleChain : Chain Nat where
  SlotsPerEpoch := 32
  CommitteeAssignments := fun _ _ => Except.ok (fun index =>
    if index = 0 then some ⟨[5, 0, 7, 0], 3, 1⟩
    else if index = 1 then some ⟨[1, 6], 4, 0⟩
    else if index = 2 then some ⟨[], 5, 2⟩
    else none)
  ActiveValidatorCount := fun _ _ => Except.ok 16384
  SlotCommitteeCount := fun activeValidatorCount => activeValidatorCount / 32 / 128
  PubkeyAtIndex := fun _ index =>
    if index < 5 then (index + 1) :: List.replicate 47 0 else zeroPubkey
  attestationDependentRoot := fun _ _ => Except.ok (List.replicate 32 7)

/-- A server used for concrete evaluations: snapshots exist at the slots that start an epoch
of 32 slots (the snapshot stored at such a slot is named by the slot) and the chain is
not optimistic. -/
def exampleServer (syncing : Bool) (currentSlot : primitives.Slot) : Server Nat where
  Syncing := syncing
  CurrentSlot := currentSlot
  IsOptimistic := Except.ok false
  StateBySlot := fun slot => if slot % 32 = 0 then Except.ok slot else Except.error "no state"

/-- A server whose optimistic-mode fetcher fails and whose state provider has no snapshot
at all. -/
def failingServer : Server Nat where
  Syncing := false
  CurrentSlot := 0
  IsOptimistic := Except.error "optimistic status unknown"
  StateBySlot := fun _ => Except.error "no state"

/-- A server that is not syncing and whose chain is optimistic, but whose state provider
has no snapshot at all. -/
def statelessServer : Server Nat where
  Syncing := false
  CurrentSlot := 0
  IsOptimistic := Except.ok true
  StateBySlot := fun _ => Except.error "no state"

/-- The duty the loop appends for `index`, if any: none when `index` has no committee
assignment. -/
def dutyOf {σ : Type} (ch : Chain σ) (s : σ)
    (committeeAssignments : primitives.ValidatorIndex → Option CommitteeAssignmentContainer)
    (committeesAtSlot : Nat) (index : primitives.ValidatorIndex) : Option AttesterDuty :=
  (committeeAssignments index).map
    (fun committee => newAttesterDuty (ch.PubkeyAtIndex s index) index committee committeesAtSlot)

/-- The request passes the sync check, the epoch-window check, the optimistic-status query,
the start-slot computation, the state fetch and the two committee helpers, with the given
intermediate results: it reaches the loop over the validator indices. -/
def ReachesAssembly {σ : Type} (vs : Server σ) (ch : Chain σ) (rawRequestedEpoch : Int)
    (isOptimistic : Bool) (startSlot : primitives.Slot) (s : σ)
    (committeeAssignments : primitives.ValidatorIndex → Option CommitteeAssignmentContainer)
    (activeValidatorCount : Nat) : Prop :=
  vs.Syncing = false ∧
  epochOfInt64 rawRequestedEpoch ≤
    (ToEpoch ch.SlotsPerEpoch vs.CurrentSlot + 1) % 18446744073709551616 ∧
  vs.IsOptimistic = Except.ok isOptimistic ∧
  (if epochOfInt64 rawRequestedEpoch =
      (ToEpoch ch.SlotsPerEpoch vs.CurrentSlot + 1) % 18446744073709551616
    then EpochStart ch.SlotsPerEpoch (ToEpoch ch.SlotsPerEpoch vs.CurrentSlot)
    else EpochStart ch.SlotsPerEpoch (epochOfInt64 rawRequestedEpoch)) = Except.ok startSlot ∧
  vs.StateBySlot startSlot = Except.ok s ∧
  ch.CommitteeAssignments s (epochOfInt64 rawRequestedEpoch) = Except.ok committeeAssignments ∧
  ch.ActiveValidatorCount s (epochOfInt64 rawRequestedEpoch) = Except.ok activeValidatorCount

/-- The calls the handler makes after a state snapshot `s` has been fetched: the two
committee helpers and the dependent root at `epoch` on `s`, the committee count, and
public-key lookups on `s`. -/
def Call.afterFetch {σ : Type} (s : σ) (epoch : primitives.Epoch) (c : Call σ) : Prop :=
  c = Call.CommitteeAssignments s epoch ∨ c = Call.ActiveValidatorCount s epoch ∨
  (∃ n, c = Call.SlotCommitteeCount n) ∨ (∃ i, c = Call.PubkeyAtIndex s i) ∨
  c = Call.attestationDependentRoot s epoch

/-- Modelled from the spec: the contract of `helpers.CommitteeAssignments`, which is not
among the sources.  A correctly computed assignment lists the validator among the members
of the committee it is assigned to, so that a match is always found ("every validator must
be assigned to a committee"); stated here for the assignments computed at `epoch` for the
validator `index`. -/
def MemberOfOwnCommittee {σ : Type} (ch : Chain σ) (epoch : primitives.Epoch)
    (index : primitives.ValidatorIndex) : Prop :=
  ∀ s asg a, ch.CommitteeAssignments s epoch = Except.ok asg → asg index = some a →
    index ∈ a.Committee

section lemmas

variable {σ : Type}

theorem attesterDutiesLoop_fst (ch : Chain σ) (s : σ)
    (asg : primitives.ValidatorIndex → Option CommitteeAssignmentContainer) (cas : Nat)
    (idx : List primitives.ValidatorIndex) (acc : List AttesterDuty) :
    (attesterDutiesLoop ch s asg cas idx acc).1 =
      if ∀ i ∈ idx, ch.PubkeyAtIndex s i ≠ zeroPubkey then
        some (acc ++ idx.filterMap (dutyOf ch s asg cas))
      else none := by
  induction idx generalizing acc with
  | nil => simp [attesterDutiesLoop]
  | cons i rest ih =>
    by_cases hz : ch.PubkeyAtIndex s i = zeroPubkey
    · simp [attesterDutiesLoop, hz]
    · cases ha : asg i with
      | none => simp [attesterDutiesLoop, hz, ha, ih, dutyOf]
      | some c => simp [attesterDutiesLoop, hz, ha, ih, dutyOf]

theorem attesterDutiesLoop_calls (ch : Chain σ) (s : σ)
    (asg : primitives.ValidatorIndex → Option CommitteeAssignmentContainer) (cas : Nat)
    (idx : List primitives.ValidatorIndex) (acc : List AttesterDuty) :
    ∀ c ∈ (attesterDutiesLoop ch s asg cas idx acc).2, ∃ i ∈ idx, c = Call.PubkeyAtIndex s i := by
  induction idx generalizing acc with
  | nil => simp [attesterDutiesLoop]
  | cons i rest ih =>
    intro c hc
    by_cases hz : ch.PubkeyAtIndex s i = zeroPubkey
    · simp [attesterDutiesLoop, hz] at hc
      exact ⟨i, by simp, hc⟩
    · cases ha : asg i with
      | none =>
        simp [attesterDutiesLoop, hz, ha] at hc
        rcases hc with hc | hc
        · exact ⟨i, by simp, hc⟩
        · obtain ⟨j, hj, hcj⟩ := ih _ c hc
          exact ⟨j, by simp [hj], hcj⟩
      | some a =>
        simp [attesterDutiesLoop, hz, ha] at hc
        rcases hc with hc | hc
        · exact ⟨i, by simp, hc⟩
        · obtain ⟨j, hj, hcj⟩ := ih _ c hc
          exact ⟨j, by simp [hj], hcj⟩

/-- What the handler does once the loop is reached. -/
theorem GetAttesterDutiesHTTP_of_reaches (vs : Server σ) (ch : Chain σ) (raw : Int)
    (idx : List primitives.ValidatorIndex) (b : Bool) (sl : primitives.Slot) (s : σ)
    (asg : primitives.ValidatorIndex → Option CommitteeAssignmentContainer) (cnt : Nat)
    (h : ReachesAssembly vs ch raw b sl s asg cnt) :
    GetAttesterDutiesHTTP vs ch (Except.ok raw) (Except.ok idx) =
      (match (attesterDutiesLoop ch s asg (ch.SlotCommitteeCount cnt) idx []).1 with
        | none =>
          (Written.WriteError ⟨"Invalid validator index", 400⟩,
            [Call.Syncing, Call.CurrentSlot, Call.IsOptimistic, Call.StateBySlot sl,
              Call.CommitteeAssignments s (epochOfInt64 raw),
              Call.ActiveValidatorCount s (epochOfInt64 raw), Call.SlotCommitteeCount cnt] ++
              (attesterDutiesLoop ch s asg (ch.SlotCommitteeCount cnt) idx []).2)
        | some attesterDuties =>
          match ch.attestationDependentRoot s (epochOfInt64 raw) with
          | Except.error err =>
            (Written.WriteError ⟨"Could not get dependent root: " ++ err, 500⟩,
              [Call.Syncing, Call.CurrentSlot, Call.IsOptimistic, Call.StateBySlot sl,
                Call.CommitteeAssignments s (epochOfInt64 raw),
                Call.ActiveValidatorCount s (epochOfInt64 raw), Call.SlotCommitteeCount cnt] ++
                (attesterDutiesLoop ch s asg (ch.SlotCommitteeCount cnt) idx []).2 ++
                [Call.attestationDependentRoot s (epochOfInt64 raw)])
          | Except.ok root =>
            (Written.WriteJson ⟨attesterDuties, b, root⟩,
              [Call.Syncing, Call.CurrentSlot, Call.IsOptimistic, Call.StateBySlot sl,
                Call.CommitteeAssignments s (epochOfInt64 raw),
                Call.ActiveValidatorCount s (epochOfInt64 raw), Call.SlotCommitteeCount cnt] ++
                (attesterDutiesLoop ch s asg (ch.SlotCommitteeCount cnt) idx []).2 ++
                [Call.attestationDependentRoot s (epochOfInt64 raw)])) := by
  obtain ⟨h1, h2, h3, h4, h5, h6, h7⟩ := h
  simp only [GetAttesterDutiesHTTP, h1, h3, h4, h5, h6, h7]
  simp [Nat.not_lt.mpr h2]

/-- A duty report is written only when the loop was reached, no requested index has the
all-zero key and the dependent root was obtained; the report is then determined. -/
theorem GetAttesterDutiesHTTP_json (vs : Server σ) (ch : Chain σ) (raw : Int)
    (idx : List primitives.ValidatorIndex) (resp : AttesterDutiesResponse)
    (h : (GetAttesterDutiesHTTP vs ch (Except.ok raw) (Except.ok idx)).1 =
      Written.WriteJson resp) :
    ∃ b sl s asg cnt root, ReachesAssembly vs ch raw b sl s asg cnt ∧
      (∀ i ∈ idx, ch.PubkeyAtIndex s i ≠ zeroPubkey) ∧
      ch.attestationDependentRoot s (epochOfInt64 raw) = Except.ok root ∧
      resp = ⟨idx.filterMap (dutyOf ch s asg (ch.SlotCommitteeCount cnt)), b, root⟩ := by
  simp only [GetAttesterDutiesHTTP] at h
  repeat' split at h
  all_goals try (simp at h; done)
  rename_i hs hw _ b hb _ sl hsl _ s hst _ asg hasg _ cnt hcnt _ ds hds _ root hroot
  rw [attesterDutiesLoop_fst] at hds
  split at hds
  · rename_i hall
    simp only [Option.some.injEq, List.nil_append] at hds
    simp only [Written.WriteJson.injEq] at h
    refine ⟨b, sl, s, asg, cnt, root, ⟨?_, ?_, hb, hsl, hst, hasg, hcnt⟩, hall, hroot, ?_⟩
    · simpa using hs
    · exact Nat.not_lt.mp hw
    · rw [← h, ← hds]
  · simp at hds

theorem epochOfInt64_lt (raw : Int) : epochOfInt64 raw < 18446744073709551616 := by
  unfold epochOfInt64
  have h1 : 0 ≤ raw % 18446744073709551616 := Int.emod_nonneg _ (by decide)
  have h2 : raw % 18446744073709551616 < 18446744073709551616 :=
    Int.emod_lt_of_pos _ (by decide)
  exact (Int.toNat_lt h1).mpr h2

theorem epochOfInt64_of_nonneg (raw : Int) (h0 : 0 ≤ raw) (h1 : raw < 9223372036854775808) :
    (epochOfInt64 raw : Int) = raw := by
  unfold epochOfInt64
  have h2 : raw % 18446744073709551616 = raw := Int.emod_eq_of_lt h0 (by omega)
  rw [h2]
  exact Int.toNat_of_nonneg h0

theorem valIndexInCommittee_of_mem (i : primitives.ValidatorIndex)
    (cm : List primitives.ValidatorIndex) (k : Nat) (h : i ∈ cm) :
    k ≤ valIndexInCommittee i cm k ∧ valIndexInCommittee i cm k < k + cm.length ∧
      cm[valIndexInCommittee i cm k - k]? = some i ∧
      ∀ j, j < valIndexInCommittee i cm k - k → cm[j]? ≠ some i := by
  induction cm generalizing k with
  | nil => simp at h
  | cons v rest ih =>
    by_cases hv : v = i
    · simp [valIndexInCommittee, hv]
    · have hrest : i ∈ rest := by
        rcases List.mem_cons.mp h with h | h
        · exact absurd h.symm hv
        · exact h
      obtain ⟨h1, h2, h3, h4⟩ := ih (k + 1) hrest
      simp only [valIndexInCommittee, hv, if_false, List.length_cons]
      have hsub : valIndexInCommittee i rest (k + 1) - k =
          (valIndexInCommittee i rest (k + 1) - (k + 1)) + 1 := by omega
      refine ⟨by omega, by omega, ?_, ?_⟩
      · rw [hsub, List.getElem?_cons_succ]
        exact h3
      · intro j hj
        cases j with
        | zero => simpa using hv
        | succ j =>
          rw [List.getElem?_cons_succ]
          exact h4 j (by omega)

theorem valIndexInCommittee_of_not_mem (i : primitives.ValidatorIndex)
    (cm : List primitives.ValidatorIndex) (k : Nat) (h : i ∉ cm) :
    valIndexInCommittee i cm k = 0 := by
  induction cm generalizing k with
  | nil => rfl
  | cons v rest ih =>
    have hv : v ≠ i := fun e => h (by simp [e])
    have hrest : i ∉ rest := fun e => h (by simp [e])
    simp [valIndexInCommittee, hv, ih (k + 1) hrest]

theorem valIndexInCommittee_lt (i : primitives.ValidatorIndex)
    (cm : List primitives.ValidatorIndex) (h : cm ≠ []) :
    valIndexInCommittee i cm 0 < cm.length := by
  by_cases hm : i ∈ cm
  · have := (valIndexInCommittee_of_mem i cm 0 hm).2.1
    omega
  · rw [valIndexInCommittee_of_not_mem i cm 0 hm]
    exact List.length_pos.mpr h

theorem mem_filterMap_dutyOf (ch : Chain σ) (s : σ)
    (asg : primitives.ValidatorIndex → Option CommitteeAssignmentContainer) (cas : Nat)
    (idx : List primitives.ValidatorIndex) (d : AttesterDuty)
    (h : d ∈ idx.filterMap (dutyOf ch s asg cas)) :
    ∃ i ∈ idx, ∃ a, asg i = some a ∧ d = newAttesterDuty (ch.PubkeyAtIndex s i) i a cas := by
  obtain ⟨i, hi, hd⟩ := List.mem_filterMap.mp h
  refine ⟨i, hi, ?_⟩
  cases ha : asg i with
  | none => simp [dutyOf, ha] at hd
  | some a =>
    refine ⟨a, rfl, ?_⟩
    simp [dutyOf, ha] at hd
    exact hd.symm

theorem map_validatorIndex_filterMap_dutyOf (ch : Chain σ) (s : σ)
    (asg : primitives.ValidatorIndex → Option CommitteeAssignmentContainer) (cas : Nat)
    (idx : List primitives.ValidatorIndex) :
    (idx.filterMap (dutyOf ch s asg cas)).map AttesterDuty.ValidatorIndex =
      idx.filter (fun i => (asg i).isSome) := by
  induction idx with
  | nil => rfl
  | cons i rest ih =>
    cases ha : asg i with
    | none => simp [List.filterMap_cons, dutyOf, ha, ih]
    | some a => simp [List.filterMap_cons, dutyOf, ha, ih, newAttesterDuty]

/-- The forward direction: a request that reaches the loop, names no index with the
all-zero key and obtains the dependent root is answered with the duty report. -/
theorem GetAttesterDutiesHTTP_report (vs : Server σ) (ch : Chain σ) (raw : Int)
    (idx : List primitives.ValidatorIndex) (b : Bool) (sl : primitives.Slot) (s : σ)
    (asg : primitives.ValidatorIndex → Option CommitteeAssignmentContainer) (cnt : Nat)
    (root : List Nat) (h : ReachesAssembly vs ch raw b sl s asg cnt)
    (hall : ∀ i ∈ idx, ch.PubkeyAtIndex s i ≠ zeroPubkey)
    (hroot : ch.attestationDependentRoot s (epochOfInt64 raw) = Except.ok root) :
    (GetAttesterDutiesHTTP vs ch (Except.ok raw) (Except.ok idx)).1 =
      Written.WriteJson
        ⟨idx.filterMap (dutyOf ch s asg (ch.SlotCommitteeCount cnt)), b, root⟩ := by
  rw [GetAttesterDutiesHTTP_of_reaches vs ch raw idx b sl s asg cnt h,
    attesterDutiesLoop_fst, if_pos hall]
  simp [hroot]

theorem GetAttesterDutiesHTTP_calls (vs : Server σ) (ch : Chain σ) (raw : Int)
    (idx : List primitives.ValidatorIndex) (hs : vs.Syncing = false)
    (hw : epochOfInt64 raw ≤
      (ToEpoch ch.SlotsPerEpoch vs.CurrentSlot + 1) % 18446744073709551616) :
    (((∃ err, vs.IsOptimistic = Except.error err) ∨
        ∃ err, (if epochOfInt64 raw =
            (ToEpoch ch.SlotsPerEpoch vs.CurrentSlot + 1) % 18446744073709551616
          then EpochStart ch.SlotsPerEpoch (ToEpoch ch.SlotsPerEpoch vs.CurrentSlot)
          else EpochStart ch.SlotsPerEpoch (epochOfInt64 raw)) = Except.error err) ∧
      (GetAttesterDutiesHTTP vs ch (Except.ok raw) (Except.ok idx)).2 =
        [Call.Syncing, Call.CurrentSlot, Call.IsOptimistic]) ∨
    ∃ sl, (if epochOfInt64 raw =
          (ToEpoch ch.SlotsPerEpoch vs.CurrentSlot + 1) % 18446744073709551616
        then EpochStart ch.SlotsPerEpoch (ToEpoch ch.SlotsPerEpoch vs.CurrentSlot)
        else EpochStart ch.SlotsPerEpoch (epochOfInt64 raw)) = Except.ok sl ∧
      ((GetAttesterDutiesHTTP vs ch (Except.ok raw) (Except.ok idx)).2 =
          [Call.Syncing, Call.CurrentSlot, Call.IsOptimistic, Call.StateBySlot sl] ∨
        ∃ s rest, vs.StateBySlot sl = Except.ok s ∧
          (GetAttesterDutiesHTTP vs ch (Except.ok raw) (Except.ok idx)).2 =
            [Call.Syncing, Call.CurrentSlot, Call.IsOptimistic, Call.StateBySlot sl] ++ rest ∧
          ∀ c ∈ rest, Call.afterFetch s (epochOfInt64 raw) c) := by
  have hw' := Nat.not_lt.mpr hw
  cases hO : vs.IsOptimistic with
  | error err =>
    left
    refine ⟨Or.inl ⟨err, rfl⟩, ?_⟩
    simp [GetAttesterDutiesHTTP, hs, hw', hO]
  | ok b =>
    cases hst : (if epochOfInt64 raw =
          (ToEpoch ch.SlotsPerEpoch vs.CurrentSlot + 1) % 18446744073709551616
        then EpochStart ch.SlotsPerEpoch (ToEpoch ch.SlotsPerEpoch vs.CurrentSlot)
        else EpochStart ch.SlotsPerEpoch (epochOfInt64 raw)) with
    | error err =>
      left
      refine ⟨Or.inr ⟨err, rfl⟩, ?_⟩
      simp only [GetAttesterDutiesHTTP, hs, hO, hst]
      simp [hw']
    | ok sl =>
      right
      refine ⟨sl, rfl, ?_⟩
      cases hsb : vs.StateBySlot sl with
      | error err =>
        left
        simp only [GetAttesterDutiesHTTP, hs, hO, hst, hsb]
        simp [hw']
      | ok s =>
        right
        cases hca : ch.CommitteeAssignments s (epochOfInt64 raw) with
        | error err =>
          refine ⟨s, [Call.CommitteeAssignments s (epochOfInt64 raw)], rfl, ?_, ?_⟩
          · simp only [GetAttesterDutiesHTTP, hs, hO, hst, hsb, hca]
            simp [hw']
          · simp [Call.afterFetch]
        | ok asg =>
          cases hav : ch.ActiveValidatorCount s (epochOfInt64 raw) with
          | error err =>
            refine ⟨s, [Call.CommitteeAssignments s (epochOfInt64 raw),
              Call.ActiveValidatorCount s (epochOfInt64 raw)], rfl, ?_, ?_⟩
            · simp only [GetAttesterDutiesHTTP, hs, hO, hst, hsb, hca, hav]
              simp [hw']
            · simp [Call.afterFetch]
          | ok cnt =>
            have hr : ReachesAssembly vs ch raw b sl s asg cnt :=
              ⟨hs, hw, hO, hst, hsb, hca, hav⟩
            have hloop := attesterDutiesLoop_calls ch s asg (ch.SlotCommitteeCount cnt) idx []
            rw [GetAttesterDutiesHTTP_of_reaches vs ch raw idx b sl s asg cnt hr]
            cases hl : (attesterDutiesLoop ch s asg (ch.SlotCommitteeCount cnt) idx []).1 with
            | none =>
              refine ⟨s, [Call.CommitteeAssignments s (epochOfInt64 raw),
                Call.ActiveValidatorCount s (epochOfInt64 raw), Call.SlotCommitteeCount cnt] ++
                (attesterDutiesLoop ch s asg (ch.SlotCommitteeCount cnt) idx []).2, rfl, ?_, ?_⟩
              · simp
              · intro c hc
                simp only [List.mem_append, List.mem_cons, List.mem_singleton,
                  List.not_mem_nil, or_false] at hc
                rcases hc with (hc | hc | hc) | hc
                · exact Or.inl hc
                · exact Or.inr (Or.inl hc)
                · exact Or.inr (Or.inr (Or.inl ⟨cnt, hc⟩))
                · obtain ⟨i, _, hi⟩ := hloop c hc
                  exact Or.inr (Or.inr (Or.inr (Or.inl ⟨i, hi⟩)))
            | some ds =>
              refine ⟨s, [Call.CommitteeAssignments s (epochOfInt64 raw),
                Call.ActiveValidatorCount s (epochOfInt64 raw), Call.SlotCommitteeCount cnt] ++
                (attesterDutiesLoop ch s asg (ch.SlotCommitteeCount cnt) idx []).2 ++
                [Call.attestationDependentRoot s (epochOfInt64 raw)], rfl, ?_, ?_⟩
              · cases ch.attestationDependentRoot s (epochOfInt64 raw) <;> simp
              · intro c hc
                simp only [List.mem_append, List.mem_cons, List.mem_singleton,
                  List.not_mem_nil, or_false] at hc
                rcases hc with ((hc | hc | hc) | hc) | hc
                · exact Or.inl hc
                · exact Or.inr (Or.inl hc)
                · exact Or.inr (Or.inr (Or.inl ⟨cnt, hc⟩))
                · obtain ⟨i, _, hi⟩ := hloop c hc
                  exact Or.inr (Or.inr (Or.inr (Or.inl ⟨i, hi⟩)))
                · exact Or.inr (Or.inr (Or.inr (Or.inr hc)))

theorem EpochStart_eq_ok (slotsPerEpoch : Nat) (epoch : primitives.Epoch) (sl : Nat)
    (h : EpochStart slotsPerEpoch epoch = Except.ok sl) : sl = slotsPerEpoch * epoch := by
  unfold EpochStart at h
  split at h
  · simp only [Except.ok.injEq] at h
    exact h.symm
  · simp at h

theorem isStateBySlot_of_afterFetch (s : σ) (epoch : primitives.Epoch) (c : Call σ)
    (h : Call.afterFetch s epoch c) : c.isStateBySlot = false := by
  rcases h with h | h | ⟨n, h⟩ | ⟨i, h⟩ | h <;> rw [h] <;> rfl

end lemmas

section claims

variable {σ : Type}

/-- C1: while the sync checker reports the node as syncing, the handler answers with
status 503 and the message "Beacon node is currently syncing and not serving requests on
this endpoint", whatever the requested epoch and the validator indices are, and the sync
checker is the only collaborator it calls: the state provider and every later collaborator
are left alone. -/
theorem syncing_fails_with_service_unavailable (vs : Server σ) (ch : Chain σ) (raw : Int)
    (idx : List primitives.ValidatorIndex) (h : vs.Syncing = true) :
    GetAttesterDutiesHTTP vs ch (Except.ok raw) (Except.ok idx) =
      (Written.WriteError
        ⟨"Beacon node is currently syncing and not serving requests on this endpoint", 503⟩,
        [Call.Syncing]) := by
  simp [GetAttesterDutiesHTTP, h]

theorem syncing_fails_with_service_unavailable_witness :
    (exampleServer true 0).Syncing = true ∧
    GetAttesterDutiesHTTP (exampleServer true 0) exampleChain (Except.ok 7)
        (Except.ok [0, 1]) =
      (Written.WriteError
        ⟨"Beacon node is currently syncing and not serving requests on this endpoint", 503⟩,
        [Call.Syncing]) :=
  ⟨rfl, syncing_fails_with_service_unavailable (exampleServer true 0) exampleChain 7 [0, 1] rfl⟩

/-- C2: when the node is not syncing and the requested epoch `E` is greater than
`currentEpoch + 1`, the handler answers with status 400 and the message "Request epoch E
cannot be greater than the next epoch currentEpoch+1", for every current slot and every
list of validator indices; only the sync checker and the time fetcher were called. -/
theorem epoch_beyond_next_fails_out_of_range (vs : Server σ) (ch : Chain σ) (raw : Int)
    (idx : List primitives.ValidatorIndex) (hs : vs.Syncing = false)
    (hE : ToEpoch ch.SlotsPerEpoch vs.CurrentSlot + 1 < epochOfInt64 raw) :
    GetAttesterDutiesHTTP vs ch (Except.ok raw) (Except.ok idx) =
      (Written.WriteError
        ⟨"Request epoch " ++ toString (epochOfInt64 raw) ++
          " cannot be greater than the next epoch " ++
          toString (ToEpoch ch.SlotsPerEpoch vs.CurrentSlot + 1), 400⟩,
        [Call.Syncing, Call.CurrentSlot]) := by
  have hlt := epochOfInt64_lt raw
  have hmod : (ToEpoch ch.SlotsPerEpoch vs.CurrentSlot + 1) % 18446744073709551616 =
      ToEpoch ch.SlotsPerEpoch vs.CurrentSlot + 1 := Nat.mod_eq_of_lt (by omega)
  simp [GetAttesterDutiesHTTP, hs, hmod, hE]

theorem epoch_beyond_next_fails_out_of_range_witness :
    (exampleServer false 5).Syncing = false ∧
    ToEpoch exampleChain.SlotsPerEpoch (exampleServer false 5).CurrentSlot + 1 <
      epochOfInt64 2 ∧
    GetAttesterDutiesHTTP (exampleServer false 5) exampleChain (Except.ok 2)
        (Except.ok [0]) =
      (Written.WriteError
        ⟨"Request epoch " ++ toString (epochOfInt64 2) ++
          " cannot be greater than the next epoch " ++
          toString (ToEpoch exampleChain.SlotsPerEpoch (exampleServer false 5).CurrentSlot + 1),
          400⟩,
        [Call.Syncing, Call.CurrentSlot]) :=
  ⟨rfl, by decide,
    epoch_beyond_next_fails_out_of_range (exampleServer false 5) exampleChain 2 [0] rfl
      (by decide)⟩

/-- C4: when a request reaches the loop over the validator indices and some requested
index, at any position, has the all-zero public key in the fetched state, the handler
answers with status 400 and the message "Invalid validator index" instead of a duty
report, whatever the other indices are. -/
theorem zero_pubkey_fails_whole_request (vs : Server σ) (ch : Chain σ) (raw : Int)
    (idx : List primitives.ValidatorIndex) (b : Bool) (sl : primitives.Slot) (s : σ)
    (asg : primitives.ValidatorIndex → Option CommitteeAssignmentContainer) (cnt : Nat)
    (h : ReachesAssembly vs ch raw b sl s asg cnt)
    (hz : ∃ i ∈ idx, ch.PubkeyAtIndex s i = zeroPubkey) :
    (GetAttesterDutiesHTTP vs ch (Except.ok raw) (Except.ok idx)).1 =
      Written.WriteError ⟨"Invalid validator index", 400⟩ := by
  have hnot : ¬ ∀ i ∈ idx, ch.PubkeyAtIndex s i ≠ zeroPubkey := by
    obtain ⟨i, hi, hk⟩ := hz
    exact fun hall => hall i hi hk
  rw [GetAttesterDutiesHTTP_of_reaches vs ch raw idx b sl s asg cnt h,
    attesterDutiesLoop_fst, if_neg hnot]

theorem zero_pubkey_fails_whole_request_witness :
    (∃ i ∈ [0, 1, 9, 0], exampleChain.PubkeyAtIndex 0 i = zeroPubkey) ∧
    (GetAttesterDutiesHTTP (exampleServer false 0) exampleChain (Except.ok 0)
        (Except.ok [0, 1, 9, 0])).1 =
      Written.WriteError ⟨"Invalid validator index", 400⟩ :=
  ⟨⟨9, by decide, by decide⟩,
    zero_pubkey_fails_whole_request (exampleServer false 0) exampleChain 0 [0, 1, 9, 0]
      false 0 0 _ 16384 ⟨rfl, by decide, rfl, rfl, rfl, rfl, rfl⟩ ⟨9, by decide, by decide⟩⟩

/-- C5: in every duty report the validator indices of the duties are the requested
indices, in the requested order, with exactly the indices without a committee assignment
for the requested epoch left out.  So an index without assignment contributes no duty
(and the request still succeeds), an index with an assignment contributes one duty per
occurrence in the request, and there are at most as many duties as requested indices. -/
theorem duties_follow_requested_indices (vs : Server σ) (ch : Chain σ) (raw : Int)
    (idx : List primitives.ValidatorIndex) (resp : AttesterDutiesResponse)
    (h : (GetAttesterDutiesHTTP vs ch (Except.ok raw) (Except.ok idx)).1 =
      Written.WriteJson resp) :
    ∃ sl s asg, vs.StateBySlot sl = Except.ok s ∧
      ch.CommitteeAssignments s (epochOfInt64 raw) = Except.ok asg ∧
      resp.Data.map AttesterDuty.ValidatorIndex = idx.filter (fun i => (asg i).isSome) ∧
      (∀ i, asg i = none → (resp.Data.map AttesterDuty.ValidatorIndex).count i = 0) ∧
      (∀ i, (asg i).isSome = true →
        (resp.Data.map AttesterDuty.ValidatorIndex).count i = idx.count i) ∧
      resp.Data.length ≤ idx.length := by
  obtain ⟨b, sl, s, asg, cnt, root, hr, _, _, hresp⟩ :=
    GetAttesterDutiesHTTP_json vs ch raw idx resp h
  have hmap : resp.Data.map AttesterDuty.ValidatorIndex =
      idx.filter (fun i => (asg i).isSome) := by
    rw [hresp]
    exact map_validatorIndex_filterMap_dutyOf ch s asg _ idx
  refine ⟨sl, s, asg, hr.2.2.2.2.1, hr.2.2.2.2.2.1, hmap, ?_, ?_, ?_⟩
  · intro i hi
    rw [hmap, List.count_eq_zero]
    intro hmem
    have := (List.mem_filter.mp hmem).2
    simp [hi] at this
  · intro i hi
    rw [hmap]
    apply List.count_filter
    exact hi
  · have hlen := congrArg List.length hmap
    rw [List.length_map] at hlen
    rw [hlen]
    exact List.length_filter_le _ _

theorem duties_follow_requested_indices_witness :
    (GetAttesterDutiesHTTP (exampleServer false 0) exampleChain (Except.ok 0)
        (Except.ok [1, 4, 0, 1])).1 =
      Written.WriteJson
        ⟨[⟨2 :: List.replicate 47 0, 1, 0, 2, 4, 0, 4⟩,
          ⟨1 :: List.replicate 47 0, 0, 1, 4, 4, 1, 3⟩,
          ⟨2 :: List.replicate 47 0, 1, 0, 2, 4, 0, 4⟩], false, List.replicate 32 7⟩ ∧
    ∃ sl s asg, (exampleServer false 0).StateBySlot sl = Except.ok s ∧
      exampleChain.CommitteeAssignments s (epochOfInt64 0) = Except.ok asg ∧
      [1, 0, 1] = [1, 4, 0, 1].filter (fun i => (asg i).isSome) ∧
      (∀ i, asg i = none → [1, 0, 1].count i = 0) ∧
      (∀ i, (asg i).isSome = true → [1, 0, 1].count i = [1, 4, 0, 1].count i) ∧
      3 ≤ 4 :=
  ⟨by decide,
    duties_follow_requested_indices (exampleServer false 0) exampleChain 0 [1, 4, 0, 1]
      ⟨[⟨2 :: List.replicate 47 0, 1, 0, 2, 4, 0, 4⟩,
        ⟨1 :: List.replicate 47 0, 0, 1, 4, 4, 1, 3⟩,
        ⟨2 :: List.replicate 47 0, 1, 0, 2, 4, 0, 4⟩], false, List.replicate 32 7⟩
      (by decide)⟩

/-- C6: a duty returned for a single-validator request satisfies
`ValidatorCommitteeIndex < CommitteeLength`, and hence `CommitteeLength ≥ 1`, the committee
helper keeping its contract that an assigned validator is a member of its committee. -/
theorem single_validator_committee_index_bound (vs : Server σ) (ch : Chain σ) (raw : Int)
    (i : primitives.ValidatorIndex) (resp : AttesterDutiesResponse) (d : AttesterDuty)
    (hmem : MemberOfOwnCommittee ch (epochOfInt64 raw) i)
    (h : (GetAttesterDutiesHTTP vs ch (Except.ok raw) (Except.ok [i])).1 =
      Written.WriteJson resp)
    (hd : d ∈ resp.Data) :
    d.ValidatorCommitteeIndex < d.CommitteeLength ∧ 1 ≤ d.CommitteeLength := by
  obtain ⟨b, sl, s, asg, cnt, root, hr, _, _, hresp⟩ :=
    GetAttesterDutiesHTTP_json vs ch raw [i] resp h
  rw [hresp] at hd
  obtain ⟨j, hj, a, ha, hda⟩ := mem_filterMap_dutyOf ch s asg _ [i] d hd
  have hji : j = i := by simpa using hj
  rw [hji] at ha hda
  have hin : i ∈ a.Committee := hmem s asg a hr.2.2.2.2.2.1 ha
  have hne : a.Committee ≠ [] := List.ne_nil_of_mem hin
  rw [hda]
  simp only [newAttesterDuty]
  exact ⟨valIndexInCommittee_lt i a.Committee hne, List.length_pos.mpr hne⟩

theorem single_validator_committee_index_bound_witness :
    MemberOfOwnCommittee exampleChain (epochOfInt64 0) 0 ∧
    (GetAttesterDutiesHTTP (exampleServer false 0) exampleChain (Except.ok 0)
        (Except.ok [0])).1 =
      Written.WriteJson
        ⟨[⟨1 :: List.replicate 47 0, 0, 1, 4, 4, 1, 3⟩], false, List.replicate 32 7⟩ ∧
    AttesterDuty.ValidatorCommitteeIndex ⟨1 :: List.replicate 47 0, 0, 1, 4, 4, 1, 3⟩ <
      AttesterDuty.CommitteeLength ⟨1 :: List.replicate 47 0, 0, 1, 4, 4, 1, 3⟩ ∧
    1 ≤ AttesterDuty.CommitteeLength ⟨1 :: List.replicate 47 0, 0, 1, 4, 4, 1, 3⟩ :=
  ⟨by
      intro s asg a h1 h2
      cases h1
      cases h2
      decide,
    by decide,
    single_validator_committee_index_bound (exampleServer false 0) exampleChain 0 0
      ⟨[⟨1 :: List.replicate 47 0, 0, 1, 4, 4, 1, 3⟩], false, List.replicate 32 7⟩
      ⟨1 :: List.replicate 47 0, 0, 1, 4, 4, 1, 3⟩
      (by
        intro s asg a h1 h2
        cases h1
        cases h2
        decide)
      (by decide) (by decide)⟩

/-- C8: in every duty report, the duties are built one per requested index with a
committee assignment, in order, and the duty built for index `i` with assignment `a`
carries the public key of `i` in the fetched state, `i` itself, the committee index of
`a`, the number of members of the committee of `a`, the attester slot of `a`, and
`SlotCommitteeCount` of the active validator count of the fetched state at the requested
epoch, which is therefore the same in all duties of the report. -/
theorem duty_fields_come_from_assignment (vs : Server σ) (ch : Chain σ) (raw : Int)
    (idx : List primitives.ValidatorIndex) (resp : AttesterDutiesResponse)
    (h : (GetAttesterDutiesHTTP vs ch (Except.ok raw) (Except.ok idx)).1 =
      Written.WriteJson resp) :
    ∃ sl s asg cnt, vs.StateBySlot sl = Except.ok s ∧
      ch.CommitteeAssignments s (epochOfInt64 raw) = Except.ok asg ∧
      ch.ActiveValidatorCount s (epochOfInt64 raw) = Except.ok cnt ∧
      resp.Data = idx.filterMap (dutyOf ch s asg (ch.SlotCommitteeCount cnt)) ∧
      (∀ d ∈ resp.Data, ∃ i ∈ idx, ∃ a, asg i = some a ∧
        d.Pubkey = ch.PubkeyAtIndex s i ∧ d.ValidatorIndex = i ∧
        d.CommitteeIndex = a.CommitteeIndex ∧ d.CommitteeLength = a.Committee.length ∧
        d.Slot = a.AttesterSlot ∧ d.CommitteesAtSlot = ch.SlotCommitteeCount cnt) ∧
      (∀ d ∈ resp.Data, ∀ d' ∈ resp.Data, d.CommitteesAtSlot = d'.CommitteesAtSlot) := by
  obtain ⟨b, sl, s, asg, cnt, root, hr, _, _, hresp⟩ :=
    GetAttesterDutiesHTTP_json vs ch raw idx resp h
  have hdata : resp.Data = idx.filterMap (dutyOf ch s asg (ch.SlotCommitteeCount cnt)) := by
    rw [hresp]
  have hfield : ∀ d ∈ resp.Data, ∃ i ∈ idx, ∃ a, asg i = some a ∧
      d.Pubkey = ch.PubkeyAtIndex s i ∧ d.ValidatorIndex = i ∧
      d.CommitteeIndex = a.CommitteeIndex ∧ d.CommitteeLength = a.Committee.length ∧
      d.Slot = a.AttesterSlot ∧ d.CommitteesAtSlot = ch.SlotCommitteeCount cnt := by
    intro d hd
    rw [hdata] at hd
    obtain ⟨i, hi, a, ha, hda⟩ := mem_filterMap_dutyOf ch s asg _ idx d hd
    refine ⟨i, hi, a, ha, ?_⟩
    rw [hda]
    simp [newAttesterDuty]
  refine ⟨sl, s, asg, cnt, hr.2.2.2.2.1, hr.2.2.2.2.2.1, hr.2.2.2.2.2.2, hdata, hfield, ?_⟩
  intro d hd d' hd'
  obtain ⟨_, _, _, _, _, _, _, _, _, h1⟩ := hfield d hd
  obtain ⟨_, _, _, _, _, _, _, _, _, h2⟩ := hfield d' hd'
  rw [h1, h2]

theorem duty_fields_come_from_assignment_witness :
    ∃ sl s asg cnt, (exampleServer false 0).StateBySlot sl = Except.ok s ∧
      exampleChain.CommitteeAssignments s (epochOfInt64 0) = Except.ok asg ∧
      exampleChain.ActiveValidatorCount s (epochOfInt64 0) = Except.ok cnt ∧
      AttesterDutiesResponse.Data
          ⟨[⟨1 :: List.replicate 47 0, 0, 1, 4, 4, 1, 3⟩,
            ⟨2 :: List.replicate 47 0, 1, 0, 2, 4, 0, 4⟩], false, List.replicate 32 7⟩ =
        [0, 3, 1].filterMap (dutyOf exampleChain s asg (exampleChain.SlotCommitteeCount cnt)) ∧
      (∀ d ∈ AttesterDutiesResponse.Data
          ⟨[⟨1 :: List.replicate 47 0, 0, 1, 4, 4, 1, 3⟩,
            ⟨2 :: List.replicate 47 0, 1, 0, 2, 4, 0, 4⟩], false, List.replicate 32 7⟩,
        ∃ i ∈ [0, 3, 1], ∃ a, asg i = some a ∧
        d.Pubkey = exampleChain.PubkeyAtIndex s i ∧ d.ValidatorIndex = i ∧
        d.CommitteeIndex = a.CommitteeIndex ∧ d.CommitteeLength = a.Committee.length ∧
        d.Slot = a.AttesterSlot ∧
        d.CommitteesAtSlot = exampleChain.SlotCommitteeCount cnt) ∧
      (∀ d ∈ AttesterDutiesResponse.Data
          ⟨[⟨1 :: List.replicate 47 0, 0, 1, 4, 4, 1, 3⟩,
            ⟨2 :: List.replicate 47 0, 1, 0, 2, 4, 0, 4⟩], false, List.replicate 32 7⟩,
        ∀ d' ∈ AttesterDutiesResponse.Data
          ⟨[⟨1 :: List.replicate 47 0, 0, 1, 4, 4, 1, 3⟩,
            ⟨2 :: List.replicate 47 0, 1, 0, 2, 4, 0, 4⟩], false, List.replicate 32 7⟩,
        d.CommitteesAtSlot = d'.CommitteesAtSlot) :=
  duty_fields_come_from_assignment (exampleServer false 0) exampleChain 0 [0, 3, 1]
    ⟨[⟨1 :: List.replicate 47 0, 0, 1, 4, 4, 1, 3⟩,
      ⟨2 :: List.replicate 47 0, 1, 0, 2, 4, 0, 4⟩], false, List.replicate 32 7⟩ (by decide)

/-- C3: for a request that passes the sync check and the epoch-window check, the state
provider is asked at most once, and only for the start slot of `currentEpoch` when the
requested epoch is `currentEpoch + 1` (the sum taken in 64 bits, as the handler does) and
for the start slot of the requested epoch otherwise; it is asked for that slot as soon as
the optimistic status and the start slot are obtained.  A next-epoch request therefore
never reads the snapshot stored at the start slot of the next epoch.  The committee
assignments, the active validator count and the dependent root are computed for the
requested epoch, on the snapshot the state provider returned for that slot. -/
theorem state_fetched_at_selected_start_slot (vs : Server σ) (ch : Chain σ) (raw : Int)
    (idx : List primitives.ValidatorIndex) (hs : vs.Syncing = false)
    (hw : epochOfInt64 raw ≤
      (ToEpoch ch.SlotsPerEpoch vs.CurrentSlot + 1) % 18446744073709551616)
    (hspe : 0 < ch.SlotsPerEpoch) :
    (∀ sl, Call.StateBySlot sl ∈
        (GetAttesterDutiesHTTP vs ch (Except.ok raw) (Except.ok idx)).2 →
      (if epochOfInt64 raw =
          (ToEpoch ch.SlotsPerEpoch vs.CurrentSlot + 1) % 18446744073709551616
        then EpochStart ch.SlotsPerEpoch (ToEpoch ch.SlotsPerEpoch vs.CurrentSlot)
        else EpochStart ch.SlotsPerEpoch (epochOfInt64 raw)) = Except.ok sl) ∧
    ((GetAttesterDutiesHTTP vs ch (Except.ok raw) (Except.ok idx)).2.filter
      Call.isStateBySlot).length ≤ 1 ∧
    (∀ b sl, vs.IsOptimistic = Except.ok b →
      (if epochOfInt64 raw =
          (ToEpoch ch.SlotsPerEpoch vs.CurrentSlot + 1) % 18446744073709551616
        then EpochStart ch.SlotsPerEpoch (ToEpoch ch.SlotsPerEpoch vs.CurrentSlot)
        else EpochStart ch.SlotsPerEpoch (epochOfInt64 raw)) = Except.ok sl →
      Call.StateBySlot sl ∈ (GetAttesterDutiesHTTP vs ch (Except.ok raw) (Except.ok idx)).2) ∧
    (epochOfInt64 raw = (ToEpoch ch.SlotsPerEpoch vs.CurrentSlot + 1) % 18446744073709551616 →
      ∀ sl, EpochStart ch.SlotsPerEpoch (epochOfInt64 raw) = Except.ok sl →
        Call.StateBySlot sl ∉
          (GetAttesterDutiesHTTP vs ch (Except.ok raw) (Except.ok idx)).2) ∧
    (∀ s e,
      (Call.CommitteeAssignments s e ∈
          (GetAttesterDutiesHTTP vs ch (Except.ok raw) (Except.ok idx)).2 ∨
        Call.ActiveValidatorCount s e ∈
          (GetAttesterDutiesHTTP vs ch (Except.ok raw) (Except.ok idx)).2 ∨
        Call.attestationDependentRoot s e ∈
          (GetAttesterDutiesHTTP vs ch (Except.ok raw) (Except.ok idx)).2) →
      e = epochOfInt64 raw ∧
      ∃ sl, Call.StateBySlot sl ∈
          (GetAttesterDutiesHTTP vs ch (Except.ok raw) (Except.ok idx)).2 ∧
        vs.StateBySlot sl = Except.ok s) ∧
    (∀ b sl s asg cnt, ReachesAssembly vs ch raw b sl s asg cnt →
      Call.CommitteeAssignments s (epochOfInt64 raw) ∈
        (GetAttesterDutiesHTTP vs ch (Except.ok raw) (Except.ok idx)).2 ∧
      Call.ActiveValidatorCount s (epochOfInt64 raw) ∈
        (GetAttesterDutiesHTTP vs ch (Except.ok raw) (Except.ok idx)).2 ∧
      ((∀ i ∈ idx, ch.PubkeyAtIndex s i ≠ zeroPubkey) →
        Call.attestationDependentRoot s (epochOfInt64 raw) ∈
          (GetAttesterDutiesHTTP vs ch (Except.ok raw) (Except.ok idx)).2)) := by
  have hshape := GetAttesterDutiesHTTP_calls vs ch raw idx hs hw
  have hfetch : ∀ sl, Call.StateBySlot sl ∈
        (GetAttesterDutiesHTTP vs ch (Except.ok raw) (Except.ok idx)).2 →
      (if epochOfInt64 raw =
          (ToEpoch ch.SlotsPerEpoch vs.CurrentSlot + 1) % 18446744073709551616
        then EpochStart ch.SlotsPerEpoch (ToEpoch ch.SlotsPerEpoch vs.CurrentSlot)
        else EpochStart ch.SlotsPerEpoch (epochOfInt64 raw)) = Except.ok sl := by
    intro sl hsl
    rcases hshape with ⟨_, h⟩ | ⟨sl', hst, h | ⟨s, rest, _, h, hrest⟩⟩
    · rw [h] at hsl
      simp at hsl
    · rw [h] at hsl
      simp at hsl
      rw [hsl]
      exact hst
    · rw [h] at hsl
      simp only [List.mem_append, List.mem_cons, List.mem_singleton, List.not_mem_nil,
        or_false, Call.StateBySlot.injEq, reduceCtorEq, false_or] at hsl
      rcases hsl with hsl | hsl
      · rw [hsl]
        exact hst
      · have := isStateBySlot_of_afterFetch _ _ _ (hrest _ hsl)
        simp [Call.isStateBySlot] at this
  refine ⟨hfetch, ?_, ?_, ?_, ?_, ?_⟩
  · rcases hshape with ⟨_, h⟩ | ⟨sl', hst, h | ⟨s, rest, _, h, hrest⟩⟩
    · rw [h]
      simp [Call.isStateBySlot]
    · rw [h]
      simp [Call.isStateBySlot]
    · have hnil : rest.filter Call.isStateBySlot = [] := by
        rw [List.filter_eq_nil_iff]
        intro c hc
        simp [isStateBySlot_of_afterFetch _ _ _ (hrest c hc)]
      rw [h, List.filter_append, hnil]
      simp [Call.isStateBySlot]
  · intro b sl hO hst
    rcases hshape with ⟨hfail, _⟩ | ⟨sl', hst', h | ⟨s, rest, _, h, _⟩⟩
    · rcases hfail with ⟨err, he⟩ | ⟨err, he⟩
      · rw [hO] at he
        simp at he
      · rw [hst] at he
        simp at he
    · rw [hst] at hst'
      simp only [Except.ok.injEq] at hst'
      rw [h, hst']
      simp
    · rw [hst] at hst'
      simp only [Except.ok.injEq] at hst'
      rw [h, hst']
      simp
  · intro hnext sl hsl hmem
    have hsel := hfetch sl hmem
    rw [if_pos hnext] at hsel
    have h1 := EpochStart_eq_ok _ _ _ hsel
    have h2 := EpochStart_eq_ok _ _ _ hsl
    have hmul : ch.SlotsPerEpoch * ToEpoch ch.SlotsPerEpoch vs.CurrentSlot =
        ch.SlotsPerEpoch * epochOfInt64 raw := by rw [← h1, ← h2]
    have heq := Nat.eq_of_mul_eq_mul_left hspe hmul
    omega
  · intro s e hmem
    rcases hshape with ⟨_, h⟩ | ⟨sl', hst, h | ⟨s', rest, hsb, h, hrest⟩⟩
    · rw [h] at hmem
      simp at hmem
    · rw [h] at hmem
      simp at hmem
    · rw [h] at hmem ⊢
      simp only [List.mem_append, List.mem_cons, List.mem_singleton, List.not_mem_nil,
        or_false, reduceCtorEq, false_or] at hmem
      have key : e = epochOfInt64 raw ∧ s = s' := by
        rcases hmem with hmem | hmem | hmem
        · rcases hrest _ hmem with h' | h' | ⟨n, h'⟩ | ⟨i, h'⟩ | h' <;>
            (cases h'; try exact ⟨rfl, rfl⟩)
        · rcases hrest _ hmem with h' | h' | ⟨n, h'⟩ | ⟨i, h'⟩ | h' <;>
            (cases h'; try exact ⟨rfl, rfl⟩)
        · rcases hrest _ hmem with h' | h' | ⟨n, h'⟩ | ⟨i, h'⟩ | h' <;>
            (cases h'; try exact ⟨rfl, rfl⟩)
      refine ⟨key.1, sl', by simp, ?_⟩
      rw [key.2]
      exact hsb
  · intro b sl s asg cnt hr
    rw [GetAttesterDutiesHTTP_of_reaches vs ch raw idx b sl s asg cnt hr]
    refine ⟨?_, ?_, ?_⟩
    · cases (attesterDutiesLoop ch s asg (ch.SlotCommitteeCount cnt) idx []).1 with
      | none => simp
      | some ds => cases ch.attestationDependentRoot s (epochOfInt64 raw) <;> simp
    · cases (attesterDutiesLoop ch s asg (ch.SlotCommitteeCount cnt) idx []).1 with
      | none => simp
      | some ds => cases ch.attestationDependentRoot s (epochOfInt64 raw) <;> simp
    · intro hall
      rw [attesterDutiesLoop_fst, if_pos hall]
      cases ch.attestationDependentRoot s (epochOfInt64 raw) <;> simp

theorem state_fetched_at_selected_start_slot_witness :
    (exampleServer false 5).Syncing = false ∧
    epochOfInt64 1 ≤
      (ToEpoch exampleChain.SlotsPerEpoch (exampleServer false 5).CurrentSlot + 1) %
        18446744073709551616 ∧
    0 < exampleChain.SlotsPerEpoch ∧
    Call.StateBySlot 0 ∈
      (GetAttesterDutiesHTTP (exampleServer false 5) exampleChain (Except.ok 1)
        (Except.ok [0])).2 ∧
    Call.StateBySlot 32 ∉
      (GetAttesterDutiesHTTP (exampleServer false 5) exampleChain (Except.ok 1)
        (Except.ok [0])).2 :=
  ⟨rfl, by decide, by decide,
    (state_fetched_at_selected_start_slot (exampleServer false 5) exampleChain 1 [0] rfl
      (by decide) (by decide)).2.2.1 false 0 rfl rfl,
    (state_fetched_at_selected_start_slot (exampleServer false 5) exampleChain 1 [0] rfl
      (by decide) (by decide)).2.2.2.1 (by decide) 32 rfl⟩

/-- C9: when a request reaches the loop, names no index with the all-zero key and the
dependent root is obtained, a duty report is written whatever the committees contain, it
has a duty for every requested index with an assignment, and in each duty, built for index
`i` with assigned committee `c`, `ValidatorCommitteeIndex` is the zero-based position of
the first occurrence of `i` in `c` when `i` occurs in `c` (the member at that position is
`i` and no earlier member is) and `0` when `i` does not occur in `c`. -/
theorem committee_position_is_first_occurrence (vs : Server σ) (ch : Chain σ) (raw : Int)
    (idx : List primitives.ValidatorIndex) (b : Bool) (sl : primitives.Slot) (s : σ)
    (asg : primitives.ValidatorIndex → Option CommitteeAssignmentContainer) (cnt : Nat)
    (root : List Nat) (h : ReachesAssembly vs ch raw b sl s asg cnt)
    (hall : ∀ i ∈ idx, ch.PubkeyAtIndex s i ≠ zeroPubkey)
    (hroot : ch.attestationDependentRoot s (epochOfInt64 raw) = Except.ok root) :
    ∃ resp, (GetAttesterDutiesHTTP vs ch (Except.ok raw) (Except.ok idx)).1 =
        Written.WriteJson resp ∧
      (∀ i ∈ idx, (asg i).isSome = true → ∃ d ∈ resp.Data, d.ValidatorIndex = i) ∧
      ∀ d ∈ resp.Data, ∃ a, asg d.ValidatorIndex = some a ∧
        (d.ValidatorIndex ∈ a.Committee →
          a.Committee[d.ValidatorCommitteeIndex]? = some d.ValidatorIndex ∧
          ∀ j, j < d.ValidatorCommitteeIndex → a.Committee[j]? ≠ some d.ValidatorIndex) ∧
        (d.ValidatorIndex ∉ a.Committee → d.ValidatorCommitteeIndex = 0) := by
  refine ⟨_, GetAttesterDutiesHTTP_report vs ch raw idx b sl s asg cnt root h hall hroot,
    ?_, ?_⟩
  · intro i hi hsome
    obtain ⟨a, ha⟩ := Option.isSome_iff_exists.mp hsome
    refine ⟨newAttesterDuty (ch.PubkeyAtIndex s i) i a (ch.SlotCommitteeCount cnt), ?_, rfl⟩
    exact List.mem_filterMap.mpr ⟨i, hi, by simp [dutyOf, ha]⟩
  · intro d hd
    obtain ⟨i, _, a, ha, hda⟩ := mem_filterMap_dutyOf ch s asg _ idx d hd
    rw [hda]
    refine ⟨a, ha, ?_, ?_⟩
    · intro hmem
      have hfirst := valIndexInCommittee_of_mem i a.Committee 0 hmem
      simp only [Nat.sub_zero] at hfirst
      exact ⟨hfirst.2.2.1, hfirst.2.2.2⟩
    · intro hmem
      exact valIndexInCommittee_of_not_mem i a.Committee 0 hmem

theorem committee_position_is_first_occurrence_witness :
    ∃ resp, (GetAttesterDutiesHTTP (exampleServer false 0) exampleChain (Except.ok 0)
          (Except.ok [0, 2])).1 = Written.WriteJson resp ∧
      (∀ i ∈ [0, 2],
        (Option.isSome (if i = 0 then some (CommitteeAssignmentContainer.mk [5, 0, 7, 0] 3 1)
          else if i = 1 then some ⟨[1, 6], 4, 0⟩
          else if i = 2 then some ⟨[], 5, 2⟩
          else none)) = true → ∃ d ∈ resp.Data, d.ValidatorIndex = i) ∧
      ∀ d ∈ resp.Data, ∃ a,
        (if d.ValidatorIndex = 0 then some (CommitteeAssignmentContainer.mk [5, 0, 7, 0] 3 1)
          else if d.ValidatorIndex = 1 then some ⟨[1, 6], 4, 0⟩
          else if d.ValidatorIndex = 2 then some ⟨[], 5, 2⟩
          else none) = some a ∧
        (d.ValidatorIndex ∈ a.Committee →
          a.Committee[d.ValidatorCommitteeIndex]? = some d.ValidatorIndex ∧
          ∀ j, j < d.ValidatorCommitteeIndex → a.Committee[j]? ≠ some d.ValidatorIndex) ∧
        (d.ValidatorIndex ∉ a.Committee → d.ValidatorCommitteeIndex = 0) :=
  committee_position_is_first_occurrence (exampleServer false 0) exampleChain 0 [0, 2]
    false 0 0 _ 16384 (List.replicate 32 7) ⟨rfl, by decide, rfl, rfl, rfl, rfl, rfl⟩
    (by decide) rfl

/-- C10, as stated, fails: the state provider of `failingServer` has no snapshot at any
slot, yet the optimistic-mode fetcher is consulted, and the request fails with the
optimistic-status failure (status 500), not with a state failure; the state provider is
not even called. -/
theorem optimistic_status_queried_before_state :
    (∀ slot, failingServer.StateBySlot slot = Except.error "no state") ∧
    GetAttesterDutiesHTTP failingServer exampleChain (Except.ok 0) (Except.ok [0]) =
      (Written.WriteError
        ⟨"Could not check optimistic status: optimistic status unknown", 500⟩,
        [Call.Syncing, Call.CurrentSlot, Call.IsOptimistic]) :=
  ⟨fun _ => rfl, by decide⟩

/-- C10, amended: the optimistic status is queried right after the epoch-window check,
before the start slot is computed and the state is fetched.  For a request that passes the
sync and epoch-window checks the optimistic-mode fetcher is always consulted; if it fails,
the request fails with "Could not check optimistic status" (status 500) and the state
provider is not called; if it succeeds, a failing start-slot computation fails the request
with "Could not get start slot from epoch" and a failing state provider fails it with
"Could not get state" (both status 500). -/
theorem optimistic_status_precedes_state_fetch (vs : Server σ) (ch : Chain σ) (raw : Int)
    (idx : List primitives.ValidatorIndex) (hs : vs.Syncing = false)
    (hw : epochOfInt64 raw ≤
      (ToEpoch ch.SlotsPerEpoch vs.CurrentSlot + 1) % 18446744073709551616) :
    Call.IsOptimistic ∈ (GetAttesterDutiesHTTP vs ch (Except.ok raw) (Except.ok idx)).2 ∧
    (∀ err, vs.IsOptimistic = Except.error err →
      GetAttesterDutiesHTTP vs ch (Except.ok raw) (Except.ok idx) =
        (Written.WriteError ⟨"Could not check optimistic status: " ++ err, 500⟩,
          [Call.Syncing, Call.CurrentSlot, Call.IsOptimistic])) ∧
    (∀ b, vs.IsOptimistic = Except.ok b →
      (∀ err, (if epochOfInt64 raw =
            (ToEpoch ch.SlotsPerEpoch vs.CurrentSlot + 1) % 18446744073709551616
          then EpochStart ch.SlotsPerEpoch (ToEpoch ch.SlotsPerEpoch vs.CurrentSlot)
          else EpochStart ch.SlotsPerEpoch (epochOfInt64 raw)) = Except.error err →
        GetAttesterDutiesHTTP vs ch (Except.ok raw) (Except.ok idx) =
          (Written.WriteError
            ⟨"Could not get start slot from epoch " ++ toString (epochOfInt64 raw) ++ ": " ++
              err, 500⟩,
            [Call.Syncing, Call.CurrentSlot, Call.IsOptimistic])) ∧
      (∀ sl err, (if epochOfInt64 raw =
            (ToEpoch ch.SlotsPerEpoch vs.CurrentSlot + 1) % 18446744073709551616
          then EpochStart ch.SlotsPerEpoch (ToEpoch ch.SlotsPerEpoch vs.CurrentSlot)
          else EpochStart ch.SlotsPerEpoch (epochOfInt64 raw)) = Except.ok sl →
        vs.StateBySlot sl = Except.error err →
        GetAttesterDutiesHTTP vs ch (Except.ok raw) (Except.ok idx) =
          (Written.WriteError ⟨"Could not get state: " ++ err, 500⟩,
            [Call.Syncing, Call.CurrentSlot, Call.IsOptimistic, Call.StateBySlot sl]))) := by
  have hw' := Nat.not_lt.mpr hw
  refine ⟨?_, ?_, ?_⟩
  · rcases GetAttesterDutiesHTTP_calls vs ch raw idx hs hw with
      ⟨_, h⟩ | ⟨sl, _, h | ⟨s, rest, _, h, _⟩⟩ <;> rw [h] <;> simp
  · intro err hO
    simp [GetAttesterDutiesHTTP, hs, hw', hO]
  · intro b hO
    refine ⟨?_, ?_⟩
    · intro err hst
      simp only [GetAttesterDutiesHTTP, hs, hO, hst]
      simp [hw']
    · intro sl err hst hsb
      simp only [GetAttesterDutiesHTTP, hs, hO, hst, hsb]
      simp [hw']

theorem optimistic_status_precedes_state_fetch_witness :
    statelessServer.Syncing = false ∧
    epochOfInt64 1 ≤
      (ToEpoch exampleChain.SlotsPerEpoch statelessServer.CurrentSlot + 1) %
        18446744073709551616 ∧
    Call.IsOptimistic ∈
      (GetAttesterDutiesHTTP statelessServer exampleChain (Except.ok 1) (Except.ok [0])).2 ∧
    GetAttesterDutiesHTTP statelessServer exampleChain (Except.ok 1) (Except.ok [0]) =
      (Written.WriteError ⟨"Could not get state: " ++ "no state", 500⟩,
        [Call.Syncing, Call.CurrentSlot, Call.IsOptimistic, Call.StateBySlot 0]) :=
  ⟨rfl, by decide,
    (optimistic_status_precedes_state_fetch statelessServer exampleChain 1 [0] rfl
      (by decide)).1,
    ((optimistic_status_precedes_state_fetch statelessServer exampleChain 1 [0] rfl
      (by decide)).2.2 true rfl).2 0 "no state" rfl rfl⟩

end claims

end validator
